import Mathlib

/-!
Verification of `generate.py` (Snapchat memories downloader / gallery
generator).  The script is a linear three-stage pipeline:

* `load_memories`   — normalize the "Saved Media" records of the export JSON,
* `download_media_files` — fetch each item, unwrap ZIP payloads, name files,
* `group_by_year_month` / `build_html` — group records and render the gallery.

We shallowly embed the pipeline: Python dicts become association lists,
`datetime` values become a six-field record, the network becomes an explicit
oracle from item index to an optional response, and byte strings become
`List Nat`.  All definitions are executable.
-/

/-- A naive `datetime.datetime` value: the six calendar fields the script
reads (`year month day hour minute second`). -/
structure PyDateTime where
  year : Nat
  month : Nat
  day : Nat
  hour : Nat
  minute : Nat
  second : Nat
deriving DecidableEq

/-- Python `datetime` comparison: lexicographic on the six fields. -/
def PyDateTime.leb (a b : PyDateTime) : Bool :=
  decide (a.year < b.year) ||
    (a.year == b.year && (decide (a.month < b.month) ||
      (a.month == b.month && (decide (a.day < b.day) ||
        (a.day == b.day && (decide (a.hour < b.hour) ||
          (a.hour == b.hour && (decide (a.minute < b.minute) ||
            (a.minute == b.minute && decide (a.second ≤ b.second))))))))))

/-! ### Decimal digits (for `str.format` / `strftime` / `strptime`) -/

/-- Fuel-driven digit extraction (structural recursion so that concrete
inputs evaluate by reduction). -/
def revDigitsAux : Nat → Nat → List Char
  | 0, _ => []
  | fuel + 1, n =>
    if n < 10 then [Nat.digitChar n]
    else Nat.digitChar (n % 10) :: revDigitsAux fuel (n / 10)

/-- Decimal digits of `n`, least significant first (`n = 0` gives `['0']`). -/
def revDigits (n : Nat) : List Char := revDigitsAux (n + 1) n

theorem revDigitsAux_irrel (fuel fuel' n : Nat) (h : n < fuel) (h' : n < fuel') :
    revDigitsAux fuel n = revDigitsAux fuel' n := by
  induction fuel generalizing fuel' n with
  | zero => omega
  | succ f ih =>
    cases fuel' with
    | zero => omega
    | succ f' =>
      simp only [revDigitsAux]
      by_cases h10 : n < 10
      · simp [h10]
      · simp only [h10, if_neg, not_false_iff]
        have hd : n / 10 < n := Nat.div_lt_self (by omega) (by omega)
        rw [ih f' (n / 10) (by omega) (by omega)]

/-- Unfolding equation for `revDigits`. -/
theorem revDigits_eq (n : Nat) :
    revDigits n = if n < 10 then [Nat.digitChar n]
      else Nat.digitChar (n % 10) :: revDigits (n / 10) := by
  by_cases h10 : n < 10
  · simp [revDigits, revDigitsAux, h10]
  · have hd : n / 10 < n := Nat.div_lt_self (by omega) (by omega)
    rw [if_neg h10]
    have step : revDigitsAux (n + 1) n = Nat.digitChar (n % 10) :: revDigitsAux n (n / 10) := by
      simp [revDigitsAux, h10]
    show revDigitsAux (n + 1) n = _
    rw [step]
    unfold revDigits
    rw [revDigitsAux_irrel n (n / 10 + 1) (n / 10) (by omega) (by omega)]

/-- Decimal digits of `n`, most significant first. -/
def digitsOf (n : Nat) : List Char := (revDigits n).reverse

/-- Numeric value of a digit character (10 for non-digits). -/
def charVal (c : Char) : Nat :=
  if '0' ≤ c ∧ c ≤ '9' then c.toNat - '0'.toNat else 10

def isDigitB (c : Char) : Bool := decide ('0' ≤ c ∧ c ≤ '9')

/-- Value of a digit list, least significant digit first. -/
def parseRevDigits : List Char → Nat
  | [] => 0
  | c :: rest => charVal c + 10 * parseRevDigits rest

/-- Value of a digit list, most significant digit first. -/
def parseDigits (l : List Char) : Nat := parseRevDigits l.reverse

/-- Zero-pad the decimal form of `n` on the left to at least `w` characters
(Python's `f"{n:0wd}"` / strftime's fixed-width numeric fields). -/
def padNum (w n : Nat) : List Char :=
  List.replicate (w - (digitsOf n).length) '0' ++ digitsOf n

/-- Python `str(n)` for a natural number. -/
def natStr (n : Nat) : String := String.mk (digitsOf n)

theorem charVal_digitChar (m : Nat) (h : m < 10) : charVal (Nat.digitChar m) = m := by
  interval_cases m <;> decide

theorem isDigitB_digitChar (m : Nat) (h : m < 10) : isDigitB (Nat.digitChar m) = true := by
  interval_cases m <;> decide

theorem parseRevDigits_revDigits (n : Nat) : parseRevDigits (revDigits n) = n := by
  induction n using Nat.strong_induction_on with
  | _ n ih =>
    rw [revDigits_eq]
    by_cases h : n < 10
    · simp only [h, if_pos]
      simp [parseRevDigits, charVal_digitChar n h]
    · simp only [h, if_neg, not_false_iff]
      have hd : n / 10 < n := Nat.div_lt_self (by omega) (by omega)
      simp only [parseRevDigits, ih _ hd, charVal_digitChar _ (Nat.mod_lt _ (by omega))]
      omega

theorem revDigits_all_digits (n : Nat) : ∀ c ∈ revDigits n, isDigitB c = true := by
  induction n using Nat.strong_induction_on with
  | _ n ih =>
    rw [revDigits_eq]
    by_cases h : n < 10
    · simp only [h, if_pos]
      intro c hc
      simp only [List.mem_singleton] at hc
      subst hc; exact isDigitB_digitChar n h
    · simp only [h, if_neg, not_false_iff]
      intro c hc
      rcases List.mem_cons.1 hc with h1 | h2
      · subst h1; exact isDigitB_digitChar _ (Nat.mod_lt _ (by omega))
      · exact ih _ (Nat.div_lt_self (by omega) (by omega)) c h2

theorem digitsOf_all_digits (n : Nat) : ∀ c ∈ digitsOf n, isDigitB c = true := by
  intro c hc
  exact revDigits_all_digits n c (List.mem_reverse.1 hc)

theorem padNum_all_digits (w n : Nat) : ∀ c ∈ padNum w n, isDigitB c = true := by
  intro c hc
  rcases List.mem_append.1 hc with h | h
  · have := List.eq_of_mem_replicate h
    subst this; decide
  · exact digitsOf_all_digits n c h

theorem parseRevDigits_append (l₁ l₂ : List Char) :
    parseRevDigits (l₁ ++ l₂) = parseRevDigits l₁ + 10 ^ l₁.length * parseRevDigits l₂ := by
  induction l₁ with
  | nil => simp [parseRevDigits]
  | cons c t ih =>
    simp only [List.cons_append, parseRevDigits, List.append_eq, ih, List.length_cons]
    ring

theorem parseRevDigits_replicate_zero (k : Nat) :
    parseRevDigits (List.replicate k '0') = 0 := by
  induction k with
  | zero => rfl
  | succ k ih => simp [List.replicate, parseRevDigits, ih, charVal]

/-- Parsing the zero-padded decimal form recovers the number. -/
theorem parseDigits_padNum (w n : Nat) : parseDigits (padNum w n) = n := by
  unfold parseDigits padNum
  rw [List.reverse_append, List.reverse_replicate]
  unfold digitsOf
  rw [List.reverse_reverse, parseRevDigits_append, parseRevDigits_replicate_zero,
    parseRevDigits_revDigits]
  omega

theorem revDigits_length_le (k n : Nat) (h1 : 1 ≤ n) (h2 : n < 10 ^ k) :
    (revDigits n).length ≤ k := by
  induction k generalizing n with
  | zero => omega
  | succ k ih =>
    rw [revDigits_eq]
    by_cases h : n < 10
    · simp only [h, if_pos, List.length_singleton]
      omega
    · simp only [h, if_neg, not_false_iff, List.length_cons]
      have hlt : n / 10 < 10 ^ k := by
        apply (Nat.div_lt_iff_lt_mul (by omega)).2
        calc n < 10 ^ (k + 1) := h2
        _ = 10 ^ k * 10 := by ring
      have h1' : 1 ≤ n / 10 := (Nat.one_le_div_iff (by omega)).2 (by omega)
      have := ih (n / 10) h1' hlt
      omega

theorem revDigits_length_pos (n : Nat) : 1 ≤ (revDigits n).length := by
  rw [revDigits_eq]
  by_cases h : n < 10 <;> simp [h]

/-- For `n ≤ 99` the two-padded form has exactly two characters. -/
theorem padNum_two_length (n : Nat) (h : n ≤ 99) : (padNum 2 n).length = 2 := by
  have hle : (digitsOf n).length ≤ 2 := by
    by_cases h0 : n = 0
    · subst h0; decide
    · have := revDigits_length_le 2 n (by omega) (by norm_num; omega)
      simpa [digitsOf] using this
  have hpos : 1 ≤ (digitsOf n).length := by
    simpa [digitsOf] using revDigits_length_pos n
  simp only [padNum, List.length_append, List.length_replicate]
  omega

/-- For `1 ≤ n ≤ 9999` the four-padded form has exactly four characters. -/
theorem padNum_four_length (n : Nat) (h1 : 1 ≤ n) (h2 : n ≤ 9999) :
    (padNum 4 n).length = 4 := by
  have hle : (digitsOf n).length ≤ 4 := by
    have := revDigits_length_le 4 n h1 (by norm_num; omega)
    simpa [digitsOf] using this
  have hpos : 1 ≤ (digitsOf n).length := by
    simpa [digitsOf] using revDigits_length_pos n
  simp only [padNum, List.length_append, List.length_replicate]
  omega

/-! ### Character-list string utilities -/

/-- `startsWithL p l`: `p` is a prefix of `l`. -/
def startsWithL : List Char → List Char → Bool
  | [], _ => true
  | _ :: _, [] => false
  | p :: ps, c :: cs => p == c && startsWithL ps cs

/-- Python `pat in s` (substring containment) on character lists. -/
def containsSubL (pat : List Char) : List Char → Bool
  | [] => startsWithL pat []
  | c :: rest => startsWithL pat (c :: rest) || containsSubL pat rest

/-- Python `pat in s` on strings. -/
def strContains (s pat : String) : Bool := containsSubL pat.data s.data

/-- Python `s.endswith(suffix)` on character lists. -/
def endsWithL (suffix l : List Char) : Bool := startsWithL suffix.reverse l.reverse

/-- Python `s.endswith(suffix)` on strings. -/
def strEndsWith (s suffix : String) : Bool := endsWithL suffix.data s.data

/-- Python `s.lower()` on character lists. -/
def lowerL (l : List Char) : List Char := l.map Char.toLower

/-- Python `s.lower()` on strings. -/
def strLower (s : String) : String := String.mk (lowerL s.data)

/-- Fuel-driven scan for Python `s.replace(pat, "")` (left-to-right removal
of non-overlapping occurrences of a nonempty pattern). -/
def removePatAux : Nat → List Char → List Char → List Char
  | 0, _, _ => []
  | _ + 1, _, [] => []
  | fuel + 1, pat, c :: rest =>
    if startsWithL pat (c :: rest) then removePatAux fuel pat ((c :: rest).drop pat.length)
    else c :: removePatAux fuel pat rest

/-- Python `s.replace(pat, "")` for a nonempty `pat`. -/
def removePat (pat l : List Char) : List Char := removePatAux (l.length + 1) pat l

/-- Splitting a character list at every occurrence of `sep`. -/
def splitOnChar (sep : Char) : List Char → List (List Char)
  | [] => [[]]
  | c :: rest =>
    if c == sep then [] :: splitOnChar sep rest
    else
      match splitOnChar sep rest with
      | [] => [[c]]
      | h :: t => (c :: h) :: t

theorem startsWithL_self (l : List Char) : startsWithL l l = true := by
  induction l with
  | nil => rfl
  | cons c t ih => simp [startsWithL, ih]

theorem removePatAux_irrel (fuel fuel' : Nat) (p : Char) (ps l : List Char)
    (h : l.length < fuel) (h' : l.length < fuel') :
    removePatAux fuel (p :: ps) l = removePatAux fuel' (p :: ps) l := by
  induction fuel generalizing fuel' l with
  | zero => omega
  | succ f ih =>
    cases fuel' with
    | zero => omega
    | succ f' =>
      cases l with
      | nil => rfl
      | cons c rest =>
        simp only [removePatAux, List.length_cons, List.drop_succ_cons]
        have hdrop : (rest.drop ps.length).length ≤ rest.length := by
          rw [List.length_drop]; omega
        simp only [List.length_cons] at h h'
        split
        · exact ih f' (rest.drop ps.length) (by omega) (by omega)
        · rw [ih f' rest (by omega) (by omega)]

/-- Unfolding equation for `removePat` with a nonempty pattern. -/
theorem removePat_eq (p : Char) (ps l : List Char) :
    removePat (p :: ps) l = match l with
      | [] => []
      | c :: rest =>
        if startsWithL (p :: ps) (c :: rest) then removePat (p :: ps) (rest.drop ps.length)
        else c :: removePat (p :: ps) rest := by
  cases l with
  | nil => rfl
  | cons c rest =>
    show removePatAux (rest.length + 2) _ _ = _
    simp only [removePatAux, List.length_cons, List.drop_succ_cons]
    have hdrop : (rest.drop ps.length).length ≤ rest.length := by
      rw [List.length_drop]; omega
    split
    · exact removePatAux_irrel _ _ p ps _ (by omega) (by omega)
    · rfl

/-- A pattern whose second character never occurs in `l` is not removed. -/
theorem removePat_of_not_mem (p q : Char) (ps l : List Char)
    (h : ∀ c ∈ l, c ≠ q) : removePat (p :: q :: ps) l = l := by
  induction l with
  | nil => rfl
  | cons c rest ih =>
    rw [removePat_eq]
    have hs : startsWithL (p :: q :: ps) (c :: rest) = false := by
      cases rest with
      | nil => simp [startsWithL]
      | cons d rest' =>
        have hd : (q == d) = false := beq_eq_false_iff_ne.2 fun hq => (h d (by simp)) hq.symm
        simp [startsWithL, hd]
    simp only [hs, Bool.false_eq_true, if_false]
    rw [ih (fun c hc => h c (List.mem_cons_of_mem _ hc))]

/-- Removing a pattern from `l ++ pat` when the pattern's second character
occurs neither in `l` nor as the pattern's first character strips exactly the
final copy of the pattern. -/
theorem removePat_append_self (p q : Char) (ps l : List Char)
    (hpq : p ≠ q) (h : ∀ c ∈ l, c ≠ q) :
    removePat (p :: q :: ps) (l ++ (p :: q :: ps)) = l := by
  induction l with
  | nil =>
    rw [List.nil_append, removePat_eq]
    have hs : startsWithL (p :: q :: ps) (p :: q :: ps) = true := startsWithL_self _
    simp only [hs, if_true]
    rw [show (q :: ps).length = (q :: ps).length from rfl, List.drop_length]
    rfl
  | cons c rest ih =>
    rw [List.cons_append, removePat_eq]
    have hs : startsWithL (p :: q :: ps) (c :: (rest ++ p :: q :: ps)) = false := by
      cases rest with
      | nil =>
        have hqp : (q == p) = false := beq_eq_false_iff_ne.2 fun hq => hpq hq.symm
        simp [startsWithL, hqp]
      | cons d rest' =>
        have hd : (q == d) = false := beq_eq_false_iff_ne.2 fun hq => (h d (by simp)) hq.symm
        simp [startsWithL, hd]
    simp only [hs, Bool.false_eq_true, if_false]
    rw [ih (fun c hc => h c (List.mem_cons_of_mem _ hc))]

/-- A list without the separator splits to a single piece. -/
theorem splitOnChar_no_sep (sep : Char) (l : List Char)
    (h : ∀ c ∈ l, c ≠ sep) : splitOnChar sep l = [l] := by
  induction l with
  | nil => rfl
  | cons c rest ih =>
    have hc : c ≠ sep := h c (by simp)
    simp only [splitOnChar, beq_iff_eq, hc, if_neg, not_false_iff]
    rw [ih (fun c hc => h c (List.mem_cons_of_mem _ hc))]

/-- Splitting at the first separator occurrence. -/
theorem splitOnChar_append (sep : Char) (a b : List Char)
    (h : ∀ c ∈ a, c ≠ sep) :
    splitOnChar sep (a ++ sep :: b) = a :: splitOnChar sep b := by
  induction a with
  | nil => simp [splitOnChar]
  | cons c rest ih =>
    have hc : c ≠ sep := h c (by simp)
    simp only [List.cons_append, splitOnChar, beq_iff_eq, hc, if_neg, not_false_iff,
      List.append_eq]
    rw [ih (fun c hc => h c (List.mem_cons_of_mem _ hc))]

/-- `dropWhile` jumps over a fully satisfying chunk. -/
theorem dropWhileL_append (p : Char → Bool) (a b : List Char)
    (h : ∀ c ∈ a, p c = true) :
    (a ++ b).dropWhile p = b.dropWhile p := by
  induction a with
  | nil => rfl
  | cons c rest ih =>
    simp only [List.cons_append, List.dropWhile_cons, h c (by simp)]
    exact ih (fun c hc => h c (List.mem_cons_of_mem _ hc))

/-- `takeWhile` stops exactly at the first failing character. -/
theorem takeWhileL_append (p : Char → Bool) (a b : List Char) (c : Char)
    (h : ∀ x ∈ a, p x = true) (hc : p c = false) :
    (a ++ c :: b).takeWhile p = a := by
  induction a with
  | nil => simp [List.takeWhile_cons, hc]
  | cons d rest ih =>
    simp only [List.cons_append, List.takeWhile_cons, h d (by simp)]
    rw [ih (fun x hx => h x (List.mem_cons_of_mem _ hx))]
    simp

/-! ### Dates: `strftime` renderers and the `strptime` patterns the loader uses -/

def isLeap (y : Nat) : Bool := (y % 4 == 0 && y % 100 != 0) || y % 400 == 0

def daysInMonth (y m : Nat) : Nat :=
  if m = 2 then (if isLeap y then 29 else 28)
  else if m = 4 ∨ m = 6 ∨ m = 9 ∨ m = 11 then 30
  else 31

/-- `calendar.month_name`: index 0 is the empty string. -/
def monthNames : List String :=
  ["", "January", "February", "March", "April", "May", "June", "July",
   "August", "September", "October", "November", "December"]

def monthName (m : Nat) : String := monthNames.getD m ""

/-- A `PyDateTime` whose fields are in `datetime.datetime`'s ranges. -/
def PyDateTime.valid (dt : PyDateTime) : Prop :=
  1 ≤ dt.year ∧ dt.year ≤ 9999 ∧ 1 ≤ dt.month ∧ dt.month ≤ 12 ∧
    1 ≤ dt.day ∧ dt.day ≤ daysInMonth dt.year dt.month ∧
    dt.hour ≤ 23 ∧ dt.minute ≤ 59 ∧ dt.second ≤ 59

instance (dt : PyDateTime) : Decidable dt.valid := by
  unfold PyDateTime.valid
  infer_instance

/-- The characters of `"%Y-%m-%d %H:%M:%S"` applied to `dt` (canonical
zero-padded rendering). -/
def renderYmdHms (dt : PyDateTime) : List Char :=
  padNum 4 dt.year ++ ['-'] ++ padNum 2 dt.month ++ ['-'] ++ padNum 2 dt.day ++ [' ']
    ++ padNum 2 dt.hour ++ [':'] ++ padNum 2 dt.minute ++ [':'] ++ padNum 2 dt.second

/-- The literal `" UTC"` (the suffix `load_memories` strips, and the `%Z`
rendering of the export's UTC timestamps). -/
def utcPat : List Char := ' ' :: 'U' :: ['T', 'C']

/-- A string produced in format `"%Y-%m-%d %H:%M:%S %Z"` (UTC timestamps). -/
def renderFmt1 (dt : PyDateTime) : String := String.mk (renderYmdHms dt ++ utcPat)

/-- A string produced in format `"%Y-%m-%d %H:%M:%S"`. -/
def renderFmt2 (dt : PyDateTime) : String := String.mk (renderYmdHms dt)

/-- A string produced in format `"%B %d, %Y"`. -/
def renderFmt3 (dt : PyDateTime) : String :=
  String.mk ((monthName dt.month).data ++ [' '] ++ padNum 2 dt.day ++ [',', ' ']
    ++ padNum 4 dt.year)

/-- A 1-to-`maxLen` digit numeric `strptime` field. -/
def parseNumField (maxLen : Nat) (l : List Char) : Option Nat :=
  if l ≠ [] ∧ l.length ≤ maxLen ∧ l.all isDigitB then some (parseDigits l) else none

/-- The `%Y` field: exactly four digits (CPython `_strptime`). -/
def parseYearField (l : List Char) : Option Nat :=
  if l.length = 4 ∧ l.all isDigitB then some (parseDigits l) else none

/-- `datetime.strptime(s, "%Y-%m-%d %H:%M:%S")`, including the range checks
performed by the `datetime` constructor. -/
def parseYmdHms (l : List Char) : Option PyDateTime :=
  match splitOnChar ' ' l with
  | [d, t] =>
    match splitOnChar '-' d, splitOnChar ':' t with
    | [ys, ms, ds], [hs, mis, ss] =>
      match parseYearField ys, parseNumField 2 ms, parseNumField 2 ds,
          parseNumField 2 hs, parseNumField 2 mis, parseNumField 2 ss with
      | some y, some mo, some da, some ho, some mi, some se =>
        if 1 ≤ y ∧ 1 ≤ mo ∧ mo ≤ 12 ∧ 1 ≤ da ∧ da ≤ daysInMonth y mo ∧
            ho ≤ 23 ∧ mi ≤ 59 ∧ se ≤ 59
        then some ⟨y, mo, da, ho, mi, se⟩ else none
      | _, _, _, _, _, _ => none
    | _, _ => none
  | _ => none

/-- `%B`: a full month name, matched case-insensitively. -/
def monthFromName (s : List Char) : Option Nat :=
  (List.range 13).findSome? fun m =>
    if 1 ≤ m ∧ lowerL (monthName m).data = lowerL s then some m else none

/-- `datetime.strptime(s, "%B %d, %Y")`. -/
def parseBdY (l : List Char) : Option PyDateTime :=
  match splitOnChar ' ' l with
  | [mp, dp, yp] =>
    match splitOnChar ',' dp with
    | [dcore, []] =>
      match monthFromName mp, parseNumField 2 dcore, parseYearField yp with
      | some mo, some da, some y =>
        if 1 ≤ y ∧ 1 ≤ da ∧ da ≤ daysInMonth y mo then some ⟨y, mo, da, 0, 0, 0⟩ else none
      | _, _, _ => none
    | _ => none
  | _ => none

/-- The loader's date parsing (generate.py lines 43-49): strip every `" UTC"`
occurrence, then try `"%Y-%m-%d %H:%M:%S %Z"` and `"%Y-%m-%d %H:%M:%S"` (both
with `" %Z"` removed from the pattern, hence identical) and `"%B %d, %Y"`. -/
def parse_date_chars (l : List Char) : Option PyDateTime :=
  let s' := removePat utcPat l
  (parseYmdHms s').orElse fun _ => (parseYmdHms s').orElse fun _ => parseBdY s'

/-- `parse_date_chars` on the string's characters. -/
def parse_date (s : String) : Option PyDateTime := parse_date_chars s.data

/-! ### Data model -/

/-- A normalized record produced by `load_memories` (generate.py lines 56-62). -/
structure MediaRecord where
  datetime : PyDateTime
  date_str : String
  media_type : String
  location : String
  url : String
deriving DecidableEq

/-- A successfully downloaded record: a `MediaRecord` copy plus the relative
local path (generate.py lines 169-170). -/
structure DownloadedRecord where
  datetime : PyDateTime
  date_str : String
  media_type : String
  location : String
  url : String
  local_path : String
deriving DecidableEq

/-! ### Loader (generate.py `load_memories`, lines 14-64) -/

/-- A JSON object of string fields, as an association list. -/
abbrev RawItem := List (String × String)

/-- `item.get(k)`. -/
def pyGet (it : RawItem) (k : String) : Option String := it.lookup k

/-- Python `a or b` on optional strings (`None` and `""` are falsy). -/
def pyOr (a b : Option String) : Option String :=
  match a with
  | some s => if s = "" then b else some s
  | none => b

/-- Truthiness of an optional string. -/
def truthy (o : Option String) : Bool :=
  match o with
  | some s => !(s == "")
  | none => false

def getDateStr (it : RawItem) : Option String := pyOr (pyGet it "Date") (pyGet it "date")

def getMediaType (it : RawItem) : String :=
  match pyOr (pyGet it "Media Type") (pyGet it "media_type") with
  | some s => if s = "" then "" else s
  | none => ""

def getLocation (it : RawItem) : String :=
  match pyOr (pyGet it "Location") (pyGet it "location") with
  | some s => if s = "" then "" else s
  | none => ""

def getDownloadLink (it : RawItem) : Option String :=
  pyOr (pyOr (pyOr (pyGet it "Media Download Url") (pyGet it "Media Download URL"))
      (pyGet it "media_download_url"))
    (pyOr (pyGet it "Download Link") (pyGet it "download_link"))

/-- Normalization of a single `"Saved Media"` record; `none` means the record
is skipped (missing date/URL or unparseable date). -/
def normalizeOne (it : RawItem) : Option MediaRecord :=
  match getDateStr it, getDownloadLink it with
  | some ds, some dl =>
    if ds = "" ∨ dl = "" then none
    else
      match parse_date ds with
      | some dt => some ⟨dt, ds, getMediaType it, getLocation it, dl⟩
      | none => none
  | _, _ => none

def load_memories (items : List RawItem) : List MediaRecord := items.filterMap normalizeOne

/-! ### Fetcher (generate.py `download_media_files`, lines 67-195) -/

/-- Extension choice (generate.py lines 86-103). -/
def determine_ext (media_type url : String) : String :=
  let mt := strLower media_type
  if strContains mt "video" then "mp4"
  else if strContains mt "image" || strContains mt "photo" then "jpg"
  else
    let u := strLower url
    if strContains u ".mp4" then "mp4"
    else if strContains u ".mov" then "mov"
    else if strContains u ".jpg" || strContains u ".jpeg" then "jpg"
    else if strContains u ".png" then "png"
    else "jpg"

/-- `dt.strftime("%Y%m%d_%H%M%S")` (canonical four-digit year). -/
def timestampStr (dt : PyDateTime) : List Char :=
  padNum 4 dt.year ++ padNum 2 dt.month ++ padNum 2 dt.day ++ ['_']
    ++ padNum 2 dt.hour ++ padNum 2 dt.minute ++ padNum 2 dt.second

/-- `f"{timestamp}_{idx:04d}.{ext}"` (generate.py line 105). -/
def fileNameOf (idx : Nat) (item : MediaRecord) : String :=
  String.mk (timestampStr item.datetime ++ ['_'] ++ padNum 4 idx ++ ['.']
    ++ (determine_ext item.media_type item.url).data)

/-- An HTTP response body: the raw bytes and, when the bytes form a readable
ZIP archive, its entries (name, content). `zipEntries = none` models
`zipfile.BadZipFile`. -/
structure FetchedData where
  bytes : List Nat
  zipEntries : Option (List (String × List Nat))
deriving DecidableEq

/-- `b"PK\x03\x04"`. -/
def zipMagic : List Nat := [0x50, 0x4B, 0x03, 0x04]

/-- generate.py lines 121-124 (`content_type` is already lowercased). -/
def isZipPayload (content_type : String) (bytes : List Nat) : Bool :=
  strContains content_type "zip" || bytes.take 4 == zipMagic

/-- `'-main.' in name` (generate.py line 133). -/
def hasMainMarker (name : String) : Bool := strContains name "-main."

def mediaExts : List String := [".mp4", ".mov", ".jpg", ".jpeg", ".png", ".heic"]

/-- The fallback entry filter (generate.py lines 140-142). -/
def fallbackEntry (name : String) : Bool :=
  !(strContains name "-overlay") && !(strContains (strLower name) "overlay")
    && mediaExts.any (fun e => strEndsWith (strLower name) e)

/-- The ZIP entry search: first entry containing `-main.`, else the first
non-overlay entry with a media extension (generate.py lines 131-144). -/
def select_main_file (names : List String) : Option String :=
  match names.find? hasMainMarker with
  | some n => some n
  | none => names.find? fallbackEntry

/-- `zf.read(name)` for a name from `zf.namelist()`. -/
def zipRead (entries : List (String × List Nat)) (n : String) : List Nat :=
  ((entries.find? (fun e => e.1 == n)).map Prod.snd).getD []

/-- Resolution of a fetched body to the bytes written locally: `none` means
the item is recorded as failed (generate.py lines 121-166). -/
def process_payload (content_type : String) (d : FetchedData) : Option (List Nat) :=
  if isZipPayload content_type d.bytes then
    match d.zipEntries with
    | none => none
    | some entries =>
      match select_main_file (entries.map Prod.fst) with
      | some n => some (zipRead entries n)
      | none => none
  else some d.bytes

def attachPath (item : MediaRecord) (p : String) : DownloadedRecord :=
  ⟨item.datetime, item.date_str, item.media_type, item.location, item.url, p⟩

/-- The network, as an oracle from item index to an optional response
(header content-type as sent, body); `none` models a network error or
timeout. -/
def Network : Type := Nat → Option (String × FetchedData)

/-- The fetch loop: only successes are kept, failures are skipped
(generate.py lines 78-195). -/
def download_media_files (items : List MediaRecord) (net : Network) :
    List DownloadedRecord :=
  items.enum.filterMap fun p =>
    match net p.1 with
    | none => none
    | some (rawCt, d) =>
      match process_payload (strLower rawCt) d with
      | none => none
      | some _ => some (attachPath p.2 ("media/" ++ fileNameOf p.1 p.2))

/-! ### Grouper (generate.py `group_by_year_month`, lines 198-218) -/

/-- The (total, reflexive, transitive) descending preorder on records by
timestamp. -/
def descByDatetime (a b : DownloadedRecord) : Prop :=
  PyDateTime.leb b.datetime a.datetime = true

instance : DecidableRel descByDatetime := fun a b =>
  instDecidableEqBool (PyDateTime.leb b.datetime a.datetime) true

/-- `sorted(keys, reverse=True)`: Python sorting is stable, so any stable
sort computes it; we use insertion sort, which evaluates by reduction. -/
def sortDescNat (l : List Nat) : List Nat := l.insertionSort (fun a b => b ≤ a)

/-- `sorted(items, key=lambda x: x["datetime"], reverse=True)` (stable). -/
def sortItemsDesc (l : List DownloadedRecord) : List DownloadedRecord :=
  l.insertionSort descByDatetime

/-- The distinct years of the input, newest first. -/
def yearKeys (items : List DownloadedRecord) : List Nat :=
  sortDescNat ((items.map fun i => i.datetime.year).dedup)

/-- The records of year `y`, in input order. -/
def yearItems (items : List DownloadedRecord) (y : Nat) : List DownloadedRecord :=
  items.filter fun i => i.datetime.year == y

/-- The distinct months of year `y`, newest first. -/
def monthKeys (items : List DownloadedRecord) (y : Nat) : List Nat :=
  sortDescNat (((yearItems items y).map fun i => i.datetime.month).dedup)

/-- The records of `(y, m)`, newest first (stable). -/
def monthBucket (items : List DownloadedRecord) (y m : Nat) : List DownloadedRecord :=
  sortItemsDesc ((yearItems items y).filter fun i => i.datetime.month == m)

/-- Year → month → records, years and months descending, records within a
month sorted newest first. -/
def group_by_year_month (items : List DownloadedRecord) :
    List (Nat × List (Nat × List DownloadedRecord)) :=
  (yearKeys items).map fun y =>
    (y, (monthKeys items y).map fun m => (m, monthBucket items y m))

/-- The bucket of a `(year, month)` pair (empty if absent). -/
def bucketOf (g : List (Nat × List (Nat × List DownloadedRecord))) (y m : Nat) :
    List DownloadedRecord :=
  (((g.lookup y).getD []).lookup m).getD []

/-- All records of the grouped index, in iteration order. -/
def flattenGrouped (g : List (Nat × List (Nat × List DownloadedRecord))) :
    List DownloadedRecord :=
  g.flatMap fun ym => ym.2.flatMap fun ml => ml.2

/-! ### Exit behaviour (generate.py `main`, lines 563-604) -/

/-- The process exit code on the modelled happy I/O path: `sys.exit(1)` when
the input file is missing, when no record normalizes, or when no download
succeeds; implicit exit 0 otherwise (filesystem writes are assumed to
succeed, as the script does not handle their failure). -/
def main_exit (fileExists : Bool) (items : List RawItem) (net : Network) : Nat :=
  if fileExists = false then 1
  else if load_memories items = [] then 1
  else if download_media_files (load_memories items) net = [] then 1
  else 0

/-! ### Renderer (generate.py `build_html`, lines 221-560) -/

/-- Pluralization suffix: empty for one, otherwise an s. -/
def pluralS (n : Nat) : String := if n = 1 then "" else "s"

/-- The document head, styles, header stats and `<main>` opener. -/
def htmlHead (total_items total_years total_months : Nat) : String :=
  "<!DOCTYPE html>
<html lang=\x27en\x27>
<head>
  <meta charset=\x27UTF-8\x27>
  <meta name=\x27viewport\x27 content=\x27width=device-width, initial-scale=1.0\x27>
  <title>Snapchat Memories</title>
  <link rel=\x27preconnect\x27 href=\x27https://fonts.googleapis.com\x27>
  <link rel=\x27preconnect\x27 href=\x27https://fonts.gstatic.com\x27 crossorigin>
  <link href=\x27https://fonts.googleapis.com/css2?family=Manrope:wght@400;600;700&display=swap\x27 rel=\x27stylesheet\x27>
  <style>
    * \x7b box-sizing: border-box; \x7d
    
    body \x7b
      margin: 0;
      font-family: -apple-system, BlinkMacSystemFont, \x27Segoe UI\x27, system-ui, sans-serif;
      background: #ffffff;
      color: #1a1a1a;
    \x7d
    
    .page \x7b
      max-width: 1120px;
      margin: 0 auto;
      padding: 32px 20px 64px;
    \x7d
    
    header \x7b
      margin-bottom: 32px;
      text-align: center;
    \x7d
    
    h1 \x7b
      font-size: 2.5rem;
      margin: 0 0 8px;
      font-weight: 700;
      font-family: \x27Manrope\x27, sans-serif;
    \x7d
    
    .chip \x7b
      display: inline-block;
      padding: 4px 12px;
      background: #f0f0f0;
      border-radius: 12px;
      font-size: 0.8rem;
      margin: 8px 0;
    \x7d
    
    .subtitle \x7b
      color: #666;
      font-size: 1rem;
      margin: 16px 0;
      line-height: 1.5;
    \x7d
    
    .stats \x7b
      display: flex;
      gap: 12px;
      justify-content: center;
      margin: 16px 0;
      flex-wrap: wrap;
    \x7d
    
    .stat \x7b
      padding: 8px 16px;
      background: #f8f9fa;
      border-radius: 20px;
      font-size: 0.9rem;
      border: 1px solid #e0e0e0;
    \x7d
    
"
    ++ "    .year-group \x7b
      margin-bottom: 32px;
    \x7d
    
    .year-header \x7b
      font-size: 1.8rem;
      font-weight: 700;
      margin-bottom: 16px;
      padding-bottom: 12px;
      border-bottom: 2px solid #e0e0e0;
    \x7d
    
    .year-summary \x7b
      font-size: 0.9rem;
      color: #666;
      font-weight: 400;
      margin-top: 4px;
    \x7d
    
    .month \x7b
      margin-bottom: 16px;
      border: 1px solid #e0e0e0;
      border-radius: 12px;
      overflow: hidden;
    \x7d
    
    .month-header \x7b
      padding: 16px 20px;
      background: #f8f9fa;
      cursor: pointer;
      display: flex;
      justify-content: space-between;
      align-items: center;
      user-select: none;
    \x7d
    
    .month-header:hover \x7b
      background: #f0f0f0;
    \x7d
    
    .month-title \x7b
      font-size: 1.1rem;
      font-weight: 600;
    \x7d
    
    .month-count \x7b
      font-size: 0.85rem;
      color: #666;
      margin-top: 2px;
    \x7d
    
    .month-badges \x7b
      display: flex;
      gap: 8px;
      align-items: center;
    \x7d
    
    .badge \x7b
      padding: 4px 10px;
      background: white;
      border: 1px solid #e0e0e0;
      border-radius: 12px;
      font-size: 0.75rem;
      color: #666;
    \x7d
    
    .chevron \x7b
      margin-left: 8px;
      transition: transform 0.2s;
    \x7d
    
    .month.open .chevron \x7b
      transform: rotate(90deg);
    \x7d
    
    .month-content \x7b
      max-height: 0;
      overflow: hidden;
      transition: max-height 0.3s ease;
      background: #fafafa;
    \x7d
    
    .month.open .month-content \x7b
      max-height: 10000px;
    \x7d
    
    .grid \x7b
      display: grid;
      grid-template-columns: repeat(auto-fill, minmax(180px, 1fr));
      gap: 14px;
      padding: 20px;
    \x7d
    
"
    ++ "    .card \x7b
      background: white;
      border: 1px solid #e0e0e0;
      border-radius: 8px;
      overflow: hidden;
      box-shadow: 0 2px 4px rgba(0,0,0,0.06);
    \x7d
    
    .media \x7b
      width: 100%;
      aspect-ratio: 9/16;
      object-fit: cover;
      background: #f0f0f0;
      display: block;
    \x7d
    
    video.media \x7b
      object-fit: cover;
      background: #000;
    \x7d
    
    .card-footer \x7b
      padding: 10px;
      text-align: center;
      font-size: 0.8rem;
      color: #666;
    \x7d
    
    .type-badge \x7b
      position: absolute;
      top: 8px;
      left: 8px;
      padding: 4px 10px;
      background: rgba(255,255,255,0.95);
      border-radius: 12px;
      font-size: 0.7rem;
      text-transform: uppercase;
      letter-spacing: 0.05em;
    \x7d
    
    .media-wrapper \x7b
      position: relative;
    \x7d
    
    @media (max-width: 768px) \x7b
      .grid \x7b
        grid-template-columns: repeat(auto-fill, minmax(150px, 1fr));
        gap: 12px;
        padding: 12px;
      \x7d
      
      h1 \x7b
        font-size: 2rem;
      \x7d
    \x7d
  </style>
</head>
<body>
  <div class=\x27page\x27>
    <header>
      <h1>📸 Snapchat Archives</h1>
      <div class=\x27chip\x27>Memories Saved Offline</div>
      <p class=\x27subtitle\x27>
        Don\x27t pay for a Snapchat subscription! All memories are stored locally, so you\x27re memories won\x27t expire.
      </p>
      <div class=\x27stats\x27>
        <div class=\x27stat\x27>"
    ++ (natStr total_items)
    ++ " memories</div>
        <div class=\x27stat\x27>"
    ++ (natStr total_years)
    ++ " years</div>
        <div class=\x27stat\x27>"
    ++ (natStr total_months)
    ++ " months</div>
      </div>
    </header>
    
    <main>
"

/-- One media card (generate.py lines 502-522). -/
def cardHtml (item : DownloadedRecord) : String :=
  let local_path := item.local_path
  let date_label := renderFmt3 item.datetime
  let is_video := strContains (strLower item.media_type) "video"
  let media_html :=
    if is_video then
      "<video class=\x27media\x27 controls preload=\x27metadata\x27 src=\x27" ++ local_path
        ++ "\x27></video>"
    else
      "<img class=\x27media\x27 src=\x27" ++ local_path ++ "\x27 alt=\x27" ++ date_label
        ++ "\x27 loading=\x27lazy\x27>"
  let type_badge :=
    if is_video then "<div class=\x27type-badge\x27>▶ Video</div>"
    else "<div class=\x27type-badge\x27>📷 Photo</div>"
  "
              <div class=\x27card\x27>
                <div class=\x27media-wrapper\x27>
                  "
    ++ (type_badge)
    ++ "
                  "
    ++ (media_html)
    ++ "
                </div>
                <div class=\x27card-footer\x27>"
    ++ (date_label)
    ++ "</div>
              </div>
"

/-- One collapsible month section (generate.py lines 478-528). -/
def monthBlock (month_num : Nat) (items : List DownloadedRecord) : String :=
  let month_name := monthName month_num
  let count := items.length
  let vid_count := (items.filter fun i => strContains (strLower i.media_type) "video").length
  let img_count := count - vid_count
  ("
        <div class=\x27month\x27>
          <div class=\x27month-header\x27>
            <div>
              <div class=\x27month-title\x27>"
    ++ (month_name)
    ++ "</div>
              <div class=\x27month-count\x27>"
    ++ (natStr count)
    ++ " item"
    ++ (pluralS count)
    ++ "</div>
            </div>
            <div class=\x27month-badges\x27>
              <span class=\x27badge\x27>"
    ++ (natStr vid_count)
    ++ " video"
    ++ (pluralS vid_count)
    ++ "</span>
              <span class=\x27badge\x27>"
    ++ (natStr img_count)
    ++ " photo"
    ++ (pluralS img_count)
    ++ "</span>
              <span class=\x27chevron\x27>▶</span>
            </div>
          </div>
          <div class=\x27month-content\x27>
            <div class=\x27grid\x27>
")
    ++ String.join (items.map cardHtml)
    ++ "
            </div>
          </div>
        </div>
"

/-- One year section (generate.py lines 467-532). -/
def yearBlock (year : Nat) (months : List (Nat × List DownloadedRecord)) : String :=
  let year_count := (months.map fun ml => ml.2.length).sum
  ("
      <div class=\x27year-group\x27>
        <div class=\x27year-header\x27>
          "
    ++ (natStr year)
    ++ "
          <div class=\x27year-summary\x27>"
    ++ (natStr year_count)
    ++ " snap"
    ++ (pluralS year_count)
    ++ " · "
    ++ (natStr months.length)
    ++ " month"
    ++ (pluralS months.length)
    ++ "</div>
        </div>
")
    ++ String.join (months.map fun ml => monthBlock ml.1 ml.2)
    ++ "
      </div>
"

/-- The closing markup and accordion script. -/
def htmlTail : String :=
  "
    </main>
  </div>
  
  <script>
    // Accordion functionality
    document.addEventListener(\x27DOMContentLoaded\x27, function() \x7b
      const months = document.querySelectorAll(\x27.month\x27);
      
      // Open first month by default
      if (months[0]) \x7b
        months[0].classList.add(\x27open\x27);
      \x7d
      
      months.forEach(month => \x7b
        const header = month.querySelector(\x27.month-header\x27);
        header.addEventListener(\x27click\x27, () => \x7b
          month.classList.toggle(\x27open\x27);
        \x7d);
      \x7d);
    \x7d);
  </script>
</body>
</html>
"

/-- The full gallery document (generate.py `build_html`). -/
def build_html (grouped : List (Nat × List (Nat × List DownloadedRecord))) : String :=
  let total_items := (grouped.map fun yg => (yg.2.map fun ml => ml.2.length).sum).sum
  let total_years := grouped.length
  let total_months := (grouped.map fun yg => yg.2.length).sum
  htmlHead total_items total_years total_months
    ++ String.join (grouped.map fun yg => yearBlock yg.1 yg.2)
    ++ htmlTail


/-! ### Substring occurrences and span extraction (to state the gallery claims) -/

/-- Number of positions of `l` at which `pat` occurs. -/
def countSubPat (pat : List Char) : List Char → Nat
  | [] => 0
  | c :: rest => (if startsWithL pat (c :: rest) then 1 else 0) + countSubPat pat rest

/-- Number of occurrences of `pat` in `s`. -/
def countSubStr (s pat : String) : Nat := countSubPat pat.data s.data

/-- The characters before the first occurrence of `pat`. -/
def takeUntilPat (pat : List Char) : List Char → List Char
  | [] => []
  | c :: rest => if startsWithL pat (c :: rest) then [] else c :: takeUntilPat pat rest

/-- For every occurrence of `openPat`, the text from just after it up to the
next occurrence of `closePat`, in order. -/
def extractSpans (openPat closePat : List Char) : List Char → List (List Char)
  | [] => []
  | c :: rest =>
    (if startsWithL openPat (c :: rest)
     then [takeUntilPat closePat ((c :: rest).drop openPat.length)] else [])
      ++ extractSpans openPat closePat rest

/-- Occurrences of `pat` starting inside `a`, within the text `a ++ b`
(scan window limited to `a` so that long texts can be counted chunkwise). -/
def countFrom (pat : List Char) : List Char → List Char → Nat
  | [], _ => 0
  | c :: rest, b =>
    (if startsWithL pat ((c :: rest) ++ b) then 1 else 0) + countFrom pat rest b

/-- Spans whose opening occurrence starts inside `a`, within `a ++ b`. -/
def spansFrom (openPat closePat : List Char) : List Char → List Char → List (List Char)
  | [], _ => []
  | c :: rest, b =>
    (if startsWithL openPat ((c :: rest) ++ b)
     then [takeUntilPat closePat (((c :: rest) ++ b).drop openPat.length)] else [])
      ++ spansFrom openPat closePat rest b

/-- Chunkwise decomposition of substring counting. -/
theorem countSubPat_append (pat a b : List Char) :
    countSubPat pat (a ++ b) = countFrom pat a b + countSubPat pat b := by
  induction a with
  | nil => simp [countFrom]
  | cons c rest ih =>
    simp only [List.cons_append, countSubPat, countFrom, List.append_eq, ih]
    omega

/-- Chunkwise decomposition of span extraction. -/
theorem extractSpans_append (o cl a b : List Char) :
    extractSpans o cl (a ++ b) = spansFrom o cl a b ++ extractSpans o cl b := by
  induction a with
  | nil => simp [spansFrom]
  | cons c rest ih =>
    simp only [List.cons_append, extractSpans, spansFrom, List.append_eq, ih]
    simp [List.append_assoc]

/-- The badge texts of the gallery page, in document order. -/
def badgeTexts (html : String) : List String :=
  (extractSpans ("<span class=\x27badge\x27>").data ("</span>").data html.data).map String.mk

/-- The years of a grouped index, in iteration order. -/
def yearsOf (g : List (Nat × List (Nat × List DownloadedRecord))) : List Nat :=
  g.map Prod.fst

/-- The months listed under year `y` of a grouped index. -/
def monthsOf (g : List (Nat × List (Nat × List DownloadedRecord))) (y : Nat) : List Nat :=
  ((g.lookup y).getD []).map Prod.fst

/-! ### The end-to-end scenario of the spec (two items, May image, January video) -/

def scenarioRawItems : List RawItem :=
  [[("Date", "2023-05-01 10:00:00 UTC"), ("Media Type", "Image"),
    ("Media Download Url", "https://cf-st.sc-cdn.net/d/a.jpg")],
   [("Date", "2023-01-15 09:30:00 UTC"), ("Media Type", "Video"),
    ("Media Download Url", "https://cf-st.sc-cdn.net/d/b.mp4")]]

/-- Both URLs resolve to downloadable non-ZIP bytes. -/
def scenarioNet : Network := fun _ => some ("image/jpeg", ⟨[0xFF, 0xD8, 0xFF, 0xE0], none⟩)

def scenarioDownloaded : List DownloadedRecord :=
  download_media_files (load_memories scenarioRawItems) scenarioNet

def scenarioGrouped : List (Nat × List (Nat × List DownloadedRecord)) :=
  group_by_year_month scenarioDownloaded

def scenarioHtml : String := build_html scenarioGrouped

/-- The May item as downloaded (image, index 0). -/
def recMay : DownloadedRecord :=
  ⟨⟨2023, 5, 1, 10, 0, 0⟩, "2023-05-01 10:00:00 UTC", "Image", "",
    "https://cf-st.sc-cdn.net/d/a.jpg", "media/20230501_100000_0000.jpg"⟩

/-- The January item as downloaded (video, index 1). -/
def recJan : DownloadedRecord :=
  ⟨⟨2023, 1, 15, 9, 30, 0⟩, "2023-01-15 09:30:00 UTC", "Video", "",
    "https://cf-st.sc-cdn.net/d/b.mp4", "media/20230115_093000_0001.mp4"⟩

/-- The grouped index the scenario produces. -/
def scenarioG : List (Nat × List (Nat × List DownloadedRecord)) :=
  [(2023, [(5, [recMay]), (1, [recJan])])]

set_option maxRecDepth 40000

theorem scenarioGrouped_eq : scenarioGrouped = scenarioG := by decide

/-- The scenario page has exactly two month sections. -/
theorem scenarioMonthCount_eq : countSubStr scenarioHtml "<div class=\x27month\x27>" = 2 := by
  have hG : scenarioGrouped = scenarioG := scenarioGrouped_eq
  show countSubStr (build_html scenarioGrouped) _ = 2
  rw [hG]
  simp only [build_html, htmlHead, yearBlock, monthBlock, cardHtml, htmlTail, scenarioG,
    countSubStr, List.map_cons, List.map_nil, String.join, List.foldl_cons, List.foldl_nil,
    String.data_append, List.append_assoc, countSubPat_append]
  decide

/-- The badge texts the scenario page actually renders, in document order:
the first (May) block holds the image, the second (January) block the video. -/
theorem scenarioBadges_eq :
    badgeTexts scenarioHtml = ["0 videos", "1 photo", "1 video", "0 photos"] := by
  have hG : scenarioGrouped = scenarioG := scenarioGrouped_eq
  show badgeTexts (build_html scenarioGrouped) = _
  rw [hG]
  simp only [build_html, htmlHead, yearBlock, monthBlock, cardHtml, htmlTail, scenarioG,
    badgeTexts, List.map_cons, List.map_nil, String.join, List.foldl_cons, List.foldl_nil,
    String.data_append, List.append_assoc, extractSpans_append, List.map_append]
  decide

/-- C1 (counterexample): in the two-item scenario (May 2023 image, January
2023 video, both URLs downloadable non-ZIP), the badge counts do NOT read
"1 video"/"0 photo" then "0 video"/"1 photo" as the claim states: the first
rendered month is May, which holds the image. -/
theorem C1_counterexample :
    ¬ (yearsOf scenarioGrouped = [2023] ∧ monthsOf scenarioGrouped 2023 = [5, 1] ∧
      countSubStr scenarioHtml "<div class=\x27month\x27>" = 2 ∧
      badgeTexts scenarioHtml = ["1 video", "0 photo", "0 video", "1 photo"]) := by
  intro h
  have hb := h.2.2.2
  rw [scenarioBadges_eq] at hb
  exact absurd hb (by decide)

/-- C1 (amended): in the end-to-end scenario with the two given items, the
GroupedIndex has exactly one year (2023) with months 5 and 1 in that
descending order, and the rendered HTML has exactly two month blocks whose
badge counts read, in document order, "0 videos"/"1 photo" for the first
(May) block and "1 video"/"0 photos" for the second (January) block. -/
theorem C1_scenario_amended :
    yearsOf scenarioGrouped = [2023] ∧ monthsOf scenarioGrouped 2023 = [5, 1] ∧
      countSubStr scenarioHtml "<div class=\x27month\x27>" = 2 ∧
      badgeTexts scenarioHtml = ["0 videos", "1 photo", "1 video", "0 photos"] := by
  refine ⟨?_, ?_, scenarioMonthCount_eq, scenarioBadges_eq⟩
  · rw [scenarioGrouped_eq]; decide
  · rw [scenarioGrouped_eq]; decide

/-! ### C8: loader exclusions -/

/-- Skipped records are exactly the `filterMap` misses. -/
theorem length_filterMap_add_countP {α β : Type} (f : α → Option β) (l : List α) :
    (l.filterMap f).length + l.countP (fun x => (f x).isNone) = l.length := by
  induction l with
  | nil => rfl
  | cons x t ih =>
    rw [List.filterMap_cons, List.countP_cons]
    cases hfx : f x with
    | none => simp [hfx]; omega
    | some b => simp [hfx]; omega

/-- C8: a record whose date or URL resolves to a falsy value (absent under
every accepted spelling, or empty) is excluded without error, and the number
of excluded records is the input length minus the normalized output length. -/
theorem C8_loader_exclusions (items : List RawItem) (it : RawItem)
    (h : truthy (getDateStr it) = false ∨ truthy (getDownloadLink it) = false) :
    normalizeOne it = none ∧
      (load_memories items).length +
        items.countP (fun x => (normalizeOne x).isNone) = items.length := by
  constructor
  · unfold normalizeOne
    cases hd : getDateStr it with
    | none => rfl
    | some ds =>
      cases hl : getDownloadLink it with
      | none => rfl
      | some dl =>
        rcases h with h | h
        · rw [hd] at h
          have hds : ds = "" := by simpa [truthy] using h
          simp [hds]
        · rw [hl] at h
          have hdl : dl = "" := by simpa [truthy] using h
          simp [hdl]
  · exact length_filterMap_add_countP normalizeOne items

/-- C8 witness: a record with a URL but an empty date is excluded, and on a
two-record input with one such record the counts add up. -/
theorem C8_loader_exclusions_witness :
    normalizeOne [("Date", ""), ("Media Download Url", "https://x/a.jpg")] = none ∧
      (load_memories [[("Date", ""), ("Media Download Url", "https://x/a.jpg")],
        [("Date", "2023-05-01 10:00:00 UTC"), ("Media Download Url", "https://x/b.jpg")]]).length +
        ([[("Date", ""), ("Media Download Url", "https://x/a.jpg")],
          [("Date", "2023-05-01 10:00:00 UTC"),
            ("Media Download Url", "https://x/b.jpg")]].countP
          (fun x => (normalizeOne x).isNone)) = 2 :=
  C8_loader_exclusions _ _ (Or.inl (by decide))

/-! ### C3: filename extension rule -/

/-- The extension rule as the spec words it: the URL fallback inspects the
URL's lowercased SUFFIX for the known markers.  (Stated from the spec, to be
compared with `determine_ext`, which the source defines via substring
containment.) -/
def ext_rule_suffix (media_type url : String) : String :=
  let mt := strLower media_type
  if strContains mt "video" then "mp4"
  else if strContains mt "image" || strContains mt "photo" then "jpg"
  else
    let u := strLower url
    if strEndsWith u ".mp4" then "mp4"
    else if strEndsWith u ".mov" then "mov"
    else if strEndsWith u ".jpg" || strEndsWith u ".jpeg" then "jpg"
    else if strEndsWith u ".png" then "png"
    else "jpg"

/-- URL markers in the priority order the source checks them. -/
def urlMarkers : List (String × String) :=
  [(".mp4", "mp4"), (".mov", "mov"), (".jpg", "jpg"), (".jpeg", "jpg"), (".png", "png")]

/-- The amended claim's rule: the first marker occurring as a SUBSTRING of
the lowercased URL, in priority order, decides the extension. -/
def ext_rule_contains (media_type url : String) : String :=
  let mt := strLower media_type
  if strContains mt "video" then "mp4"
  else if strContains mt "image" || strContains mt "photo" then "jpg"
  else
    match urlMarkers.find? (fun p => strContains (strLower url) p.1) with
    | some p => p.2
    | none => "jpg"

/-- C3 (counterexample): for `mediaType = ""` and a URL ending in `.png`
that also mentions `.mp4` earlier, the code picks `mp4` (substring check in
priority order), while the claim's suffix rule demands `png`. -/
theorem C3_counterexample :
    determine_ext "" "http://h/a.mp4.png" = "mp4" ∧
      ext_rule_suffix "" "http://h/a.mp4.png" = "png" ∧
      determine_ext "" "http://h/a.mp4.png" ≠ ext_rule_suffix "" "http://h/a.mp4.png" := by
  refine ⟨by decide, by decide, ?_⟩
  intro h
  rw [show determine_ext "" "http://h/a.mp4.png" = "mp4" from by decide,
    show ext_rule_suffix "" "http://h/a.mp4.png" = "png" from by decide] at h
  exact absurd h (by decide)

/-- C3 (amended): the extension is a deterministic function of
`(mediaType, url)` computed in priority order — "video" in the media type →
mp4; "image"/"photo" → jpg; else the first of `.mp4/.mov/.jpg/.jpeg/.png`
occurring as a substring of the lowercased URL; else jpg.  In particular
`"Video"` gives mp4 regardless of URL, an otherwise marker-free URL ending
`.png` gives png, and an unknown suffix gives jpg. -/
theorem C3_extension_rule_amended :
    (∀ mt url, determine_ext mt url = ext_rule_contains mt url) ∧
      determine_ext "Video" "https://x/file.bin" = "mp4" ∧
      determine_ext "" "https://x/x.png" = "png" ∧
      determine_ext "" "https://x/x.unknown" = "jpg" := by
  refine ⟨?_, by decide, by decide, by decide⟩
  intro mt url
  unfold determine_ext ext_rule_contains urlMarkers
  by_cases h1 : strContains (strLower mt) "video" = true <;> simp only [h1, if_true, if_false,
    Bool.false_eq_true, Bool.true_eq_false, if_pos, if_neg, not_false_iff]
  by_cases h2 : (strContains (strLower mt) "image" || strContains (strLower mt) "photo") = true <;>
    simp only [h2, if_true, if_false, Bool.false_eq_true, if_pos, if_neg, not_false_iff]
  by_cases h3 : strContains (strLower url) ".mp4" = true <;> simp [h3, List.find?]
  by_cases h4 : strContains (strLower url) ".mov" = true <;> simp [h4, List.find?]
  by_cases h5 : strContains (strLower url) ".jpg" = true
  · simp [h5, List.find?]
  · by_cases h6 : strContains (strLower url) ".jpeg" = true
    · simp [h5, h6, List.find?]
    · by_cases h7 : strContains (strLower url) ".png" = true <;>
        simp [h5, h6, h7, List.find?]

/-! ### C6 and C7: payload handling -/

/-- C6: for a ZIP payload, the extracted entry is the first whose name
contains `-main.`; failing that, the first non-overlay entry with a known
media extension; a corrupt archive or no suitable entry fails the item.  The
two spec examples resolve as stated. -/
theorem C6_zip_entry_selection (ct : String) (bytes : List Nat)
    (h : isZipPayload ct bytes = true) :
    (process_payload ct ⟨bytes, none⟩ = none) ∧
      (∀ entries n, (entries.map Prod.fst).find? hasMainMarker = some n →
        process_payload ct ⟨bytes, some entries⟩ = some (zipRead entries n)) ∧
      (∀ entries n, (entries.map Prod.fst).find? hasMainMarker = none →
        (entries.map Prod.fst).find? fallbackEntry = some n →
        process_payload ct ⟨bytes, some entries⟩ = some (zipRead entries n)) ∧
      (∀ entries, (entries.map Prod.fst).find? hasMainMarker = none →
        (entries.map Prod.fst).find? fallbackEntry = none →
        process_payload ct ⟨bytes, some entries⟩ = none) ∧
      select_main_file ["clip-overlay.png", "clip-main.mp4"] = some "clip-main.mp4" ∧
      select_main_file ["a-overlay.jpg", "b.mp4"] = some "b.mp4" := by
  refine ⟨?_, ?_, ?_, ?_, by decide, by decide⟩
  · simp [process_payload, h]
  · intro entries n hmain
    simp [process_payload, h, select_main_file, hmain]
  · intro entries n hmain hfb
    simp [process_payload, h, select_main_file, hmain, hfb]
  · intro entries hmain hfb
    simp [process_payload, h, select_main_file, hmain, hfb]

/-- C6 witness: a ZIP content type with a corrupt body fails, and the
overlay/main example archive extracts the main entry's bytes. -/
theorem C6_zip_entry_selection_witness :
    process_payload "application/zip" ⟨[], none⟩ = none ∧
      process_payload "application/zip"
        ⟨[], some [("clip-overlay.png", [1]), ("clip-main.mp4", [2])]⟩ = some [2] := by
  constructor
  · exact (C6_zip_entry_selection "application/zip" [] (by decide)).1
  · have h2 := (C6_zip_entry_selection "application/zip" [] (by decide)).2.1
      [("clip-overlay.png", [1]), ("clip-main.mp4", [2])] "clip-main.mp4" (by decide)
    rw [h2]
    decide

/-- C7: a response whose (lowercased) content type does not mention "zip"
and whose body does not begin with the four ZIP magic bytes is written
verbatim — the result is the raw bytes, independent of any ZIP reading of
the body, so no extraction is attempted. -/
theorem C7_nonzip_saved_verbatim (ct : String) (d : FetchedData)
    (hct : strContains (strLower ct) "zip" = false)
    (hmagic : d.bytes.take 4 ≠ zipMagic) :
    process_payload (strLower ct) d = some d.bytes := by
  have hz : isZipPayload (strLower ct) d.bytes = false := by
    unfold isZipPayload
    simp [hct, beq_iff_eq, hmagic]
  simp [process_payload, hz]

/-- C7 witness: a JPEG response is saved byte-for-byte. -/
theorem C7_nonzip_saved_verbatim_witness :
    process_payload (strLower "image/jpeg") ⟨[0xFF, 0xD8, 0xFF], none⟩ =
      some [0xFF, 0xD8, 0xFF] :=
  C7_nonzip_saved_verbatim "image/jpeg" ⟨[0xFF, 0xD8, 0xFF], none⟩ (by decide) (by decide)

/-! ### C9: exit behaviour -/

/-- C9: on the modelled happy I/O path, the process exits non-zero exactly
when the input file does not exist, or no record normalizes, or no file
downloads successfully; otherwise it exits zero. -/
theorem C9_exit_code_iff (fileExists : Bool) (items : List RawItem) (net : Network) :
    main_exit fileExists items net ≠ 0 ↔
      (fileExists = false ∨ load_memories items = [] ∨
        download_media_files (load_memories items) net = []) := by
  unfold main_exit
  by_cases hf : fileExists = false
  · simp [hf]
  · by_cases hl : load_memories items = []
    · simp [hf, hl]
    · by_cases hd : download_media_files (load_memories items) net = [] <;>
        simp [hf, hl, hd]

/-! ### C10: filename uniqueness -/

/-- Recover the zero-padded sequence index from a generated filename: skip
the extension after the final dot, then read the digit run up to the
underscore. -/
def extractIdxFromName (s : String) : Nat :=
  let r := s.data.reverse
  let afterDot := (r.dropWhile (fun c => !(c == '.'))).drop 1
  parseRevDigits (afterDot.takeWhile (fun c => !(c == '_')))

/-- The chosen extension is one of the four literals the code returns. -/
theorem determine_ext_mem (mt url : String) :
    determine_ext mt url ∈ (["mp4", "mov", "jpg", "png"] : List String) := by
  unfold determine_ext
  dsimp only
  split_ifs <;> simp

/-- A digit character differs from any non-digit character. -/
theorem isDigitB_beq_false (c d : Char) (hc : isDigitB c = true) (hd : isDigitB d = false) :
    (c == d) = false := by
  rw [beq_eq_false_iff_ne]
  intro h
  subst h
  rw [hc] at hd
  exact absurd hd (by simp)

/-- Reading the digit run between the final underscore and the final dot of
`T ++ "_" ++ P ++ "." ++ E` (with `P` all digits and `E` dot-free) recovers
`P`. -/
theorem extract_between_sep (T P E : List Char)
    (hP : ∀ c ∈ P, isDigitB c = true)
    (hE : ∀ c ∈ E, (c == '.') = false) :
    parseRevDigits ((((T ++ ['_'] ++ P ++ ['.'] ++ E).reverse.dropWhile
      (fun c => !(c == '.'))).drop 1).takeWhile (fun c => !(c == '_'))) = parseDigits P := by
  have hrev : (T ++ ['_'] ++ P ++ ['.'] ++ E).reverse
      = E.reverse ++ ('.' :: (P.reverse ++ '_' :: T.reverse)) := by
    simp [List.reverse_append]
  rw [hrev]
  rw [dropWhileL_append _ E.reverse _ (fun c hc => by
    simp only [Bool.not_eq_true']
    exact hE c (List.mem_reverse.1 hc))]
  rw [show List.dropWhile (fun c => !(c == '.')) ('.' :: (P.reverse ++ '_' :: T.reverse))
      = '.' :: (P.reverse ++ '_' :: T.reverse) from by rw [List.dropWhile_cons]; simp]
  rw [List.drop_one, List.tail_cons]
  rw [takeWhileL_append _ P.reverse T.reverse '_' (fun x hx => by
    simp only [Bool.not_eq_true']
    exact isDigitB_beq_false x '_' (hP x (List.mem_reverse.1 hx)) (by decide)) (by decide)]
  rfl

/-- The index is recoverable from the filename. -/
theorem extractIdx_fileNameOf (i : Nat) (a : MediaRecord) :
    extractIdxFromName (fileNameOf i a) = i := by
  have hext := determine_ext_mem a.media_type a.url
  simp only [List.mem_cons, List.mem_singleton, List.not_mem_nil, or_false] at hext
  have hE : ∀ c ∈ (determine_ext a.media_type a.url).data, (c == '.') = false := by
    rcases hext with hE | hE | hE | hE <;> (rw [hE]; decide)
  show parseRevDigits _ = i
  rw [show (fileNameOf i a).data = timestampStr a.datetime ++ ['_'] ++ padNum 4 i ++ ['.']
      ++ (determine_ext a.media_type a.url).data from rfl]
  rw [extract_between_sep _ _ _ (padNum_all_digits 4 i) hE, parseDigits_padNum]

/-- C10: two records at distinct positions in the fetch sequence always get
distinct local filenames, because the zero-padded sequence index is embedded
between the final underscore and the final dot. -/
theorem C10_filenames_distinct (items : List MediaRecord) (i j : Nat)
    (hi : i < items.length) (hj : j < items.length) (hij : i ≠ j) :
    fileNameOf i (items.get ⟨i, hi⟩) ≠ fileNameOf j (items.get ⟨j, hj⟩) := by
  intro heq
  have h1 := extractIdx_fileNameOf i (items.get ⟨i, hi⟩)
  have h2 := extractIdx_fileNameOf j (items.get ⟨j, hj⟩)
  rw [heq] at h1
  exact hij (h1.symm.trans h2)

/-- C10 witness: two records with identical timestamp, media type, and URL
at positions 0 and 1 still get different filenames. -/
theorem C10_filenames_distinct_witness :
    fileNameOf 0 ⟨⟨2023, 5, 1, 10, 0, 0⟩, "2023-05-01 10:00:00 UTC", "Image", "", "u"⟩ ≠
      fileNameOf 1 ⟨⟨2023, 5, 1, 10, 0, 0⟩, "2023-05-01 10:00:00 UTC", "Image", "", "u"⟩ :=
  C10_filenames_distinct
    [⟨⟨2023, 5, 1, 10, 0, 0⟩, "2023-05-01 10:00:00 UTC", "Image", "", "u"⟩,
      ⟨⟨2023, 5, 1, 10, 0, 0⟩, "2023-05-01 10:00:00 UTC", "Image", "", "u"⟩]
    0 1 (by decide) (by decide) (by decide)

/-! ### C4: grouping is a partition -/

/-- Looking up a key in a key-indexed map of itself. -/
theorem lookup_map_self {β : Type} (ks : List Nat) (f : Nat → β) (y : Nat) :
    (ks.map fun k => (k, f k)).lookup y = if y ∈ ks then some (f y) else none := by
  induction ks with
  | nil => simp
  | cons k t ih =>
    rw [List.map_cons, List.lookup_cons]
    by_cases hyk : y = k
    · subst hyk
      simp
    · have : (y == k) = false := beq_eq_false_iff_ne.2 hyk
      simp [this, hyk, ih, List.mem_cons]

/-- Membership in the sorted dedup of years. -/
theorem mem_yearKeys (items : List DownloadedRecord) (y : Nat) :
    y ∈ yearKeys items ↔ ∃ i ∈ items, i.datetime.year = y := by
  unfold yearKeys sortDescNat
  simp [List.mem_dedup, List.mem_map]

/-- Membership in the sorted dedup of a year's months. -/
theorem mem_monthKeys (items : List DownloadedRecord) (y m : Nat) :
    m ∈ monthKeys items y ↔ ∃ i ∈ yearItems items y, i.datetime.month = m := by
  unfold monthKeys sortDescNat
  simp [List.mem_dedup, List.mem_map]

/-- Counting a record in one month bucket. -/
theorem count_monthBucket (items : List DownloadedRecord) (y m : Nat)
    (r : DownloadedRecord) :
    (monthBucket items y m).count r =
      if r.datetime.year = y ∧ r.datetime.month = m then items.count r else 0 := by
  unfold monthBucket sortItemsDesc yearItems
  rw [(List.perm_insertionSort _ _).count_eq, List.filter_filter]
  by_cases hp : r.datetime.year = y ∧ r.datetime.month = m
  · rw [if_pos hp]
    exact List.count_filter (by simp [hp.1, hp.2])
  · rw [if_neg hp]
    rw [List.count_eq_zero]
    intro hr
    have hm := (List.mem_filter.1 hr).2
    simp only [Bool.and_eq_true, beq_iff_eq] at hm
    exact hp ⟨hm.2, hm.1⟩

/-- A record present in the input names a valid year key. -/
theorem year_mem_of_mem (items : List DownloadedRecord) (r : DownloadedRecord)
    (hr : r ∈ items) : r.datetime.year ∈ yearKeys items :=
  (mem_yearKeys items _).2 ⟨r, hr, rfl⟩

/-- A record present in the input names a valid month key of its year. -/
theorem month_mem_of_mem (items : List DownloadedRecord) (r : DownloadedRecord)
    (hr : r ∈ items) : r.datetime.month ∈ monthKeys items r.datetime.year := by
  refine (mem_monthKeys items _ _).2 ⟨r, ?_, rfl⟩
  unfold yearItems
  exact List.mem_filter.2 ⟨hr, by simp⟩

/-- The bucket of `(y, m)` counts `r` exactly `count r items` times when
`(y, m)` is `r`'s own key pair, and zero times otherwise. -/
theorem bucketOf_count (items : List DownloadedRecord) (y m : Nat)
    (r : DownloadedRecord) :
    (bucketOf (group_by_year_month items) y m).count r =
      if r.datetime.year = y ∧ r.datetime.month = m then items.count r else 0 := by
  unfold bucketOf group_by_year_month
  rw [lookup_map_self]
  by_cases hy : y ∈ yearKeys items
  · rw [if_pos hy]
    simp only [Option.getD_some]
    rw [lookup_map_self]
    by_cases hm : m ∈ monthKeys items y
    · rw [if_pos hm]
      simp only [Option.getD_some]
      exact count_monthBucket items y m r
    · rw [if_neg hm]
      simp only [Option.getD_none, List.count_nil]
      by_cases hp : r.datetime.year = y ∧ r.datetime.month = m
      · rw [if_pos hp]
        by_cases hr : r ∈ items
        · exact absurd (hp.2 ▸ hp.1 ▸ month_mem_of_mem items r hr) hm
        · exact (List.count_eq_zero.2 hr).symm
      · rw [if_neg hp]
  · rw [if_neg hy]
    simp only [Option.getD_none, List.lookup_nil, List.count_nil]
    by_cases hp : r.datetime.year = y ∧ r.datetime.month = m
    · rw [if_pos hp]
      by_cases hr : r ∈ items
      · exact absurd (hp.1 ▸ year_mem_of_mem items r hr) hy
      · exact (List.count_eq_zero.2 hr).symm
    · rw [if_neg hp]

/-- Counting through a `flatMap`. -/
theorem count_flatMap {α β : Type} [DecidableEq β] (l : List α) (f : α → List β) (b : β) :
    (l.flatMap f).count b = (l.map fun x => (f x).count b).sum := by
  induction l with
  | nil => rfl
  | cons x t ih => simp [List.flatMap_cons, List.count_append, ih]

/-- Summing an indicator over a duplicate-free list. -/
theorem sum_map_ite {α : Type} [DecidableEq α] (l : List α) (hl : l.Nodup) (a : α)
    (f : α → Nat) :
    (l.map fun x => if x = a then f x else 0).sum = if a ∈ l then f a else 0 := by
  induction l with
  | nil => simp
  | cons x t ih =>
    rw [List.map_cons, List.sum_cons, ih (List.nodup_cons.1 hl).2]
    by_cases hxa : x = a
    · subst hxa
      have hnt : x ∉ t := (List.nodup_cons.1 hl).1
      simp [hnt]
    · have hax : ¬a = x := fun h => hxa h.symm
      by_cases hat : a ∈ t <;> simp [hxa, hax, hat, List.mem_cons]

/-- The keys lists are duplicate-free. -/
theorem yearKeys_nodup (items : List DownloadedRecord) : (yearKeys items).Nodup := by
  unfold yearKeys sortDescNat
  exact (List.perm_insertionSort _ _).nodup_iff.2 (List.nodup_dedup _)

theorem monthKeys_nodup (items : List DownloadedRecord) (y : Nat) :
    (monthKeys items y).Nodup := by
  unfold monthKeys sortDescNat
  exact (List.perm_insertionSort _ _).nodup_iff.2 (List.nodup_dedup _)

/-- The flattened grouped index is a permutation of the input. -/
theorem flattenGrouped_perm (items : List DownloadedRecord) :
    (flattenGrouped (group_by_year_month items)).Perm items := by
  rw [List.perm_iff_count]
  intro r
  unfold flattenGrouped group_by_year_month
  rw [count_flatMap, List.map_map]
  have hinner : ∀ y,
      ((((monthKeys items y).map fun m => (m, monthBucket items y m)).flatMap
        fun ml => ml.2).count r)
      = if y = r.datetime.year
        then (if r.datetime.month ∈ monthKeys items y then items.count r else 0) else 0 := by
    intro y
    rw [count_flatMap, List.map_map]
    have hcong : ((monthKeys items y).map
          ((fun x : Nat × List DownloadedRecord => x.2.count r) ∘
            fun m => (m, monthBucket items y m)))
        = (monthKeys items y).map fun m =>
            if m = r.datetime.month
            then (if r.datetime.year = y ∧ r.datetime.month = m then items.count r else 0)
            else 0 := by
      apply List.map_congr_left
      intro m _
      show (monthBucket items y m).count r = _
      rw [count_monthBucket]
      by_cases h1 : m = r.datetime.month
      · simp [h1]
      · have : ¬(r.datetime.year = y ∧ r.datetime.month = m) := by
          intro h
          exact h1 h.2.symm
        simp [this, h1]
    rw [show ((monthKeys items y).map ((fun x : Nat × List DownloadedRecord => x.2.count r) ∘
        fun m => (m, monthBucket items y m))).sum
        = ((monthKeys items y).map fun m =>
            if m = r.datetime.month
            then (if r.datetime.year = y ∧ r.datetime.month = m then items.count r else 0)
            else 0).sum from by rw [hcong]]
    rw [sum_map_ite _ (monthKeys_nodup items y)]
    by_cases hmem : r.datetime.month ∈ monthKeys items y
    · rw [if_pos hmem]
      by_cases hy : y = r.datetime.year
      · subst hy
        simp [hmem]
      · have hne : ¬(r.datetime.year = y ∧ r.datetime.month = r.datetime.month) := by
          intro h
          exact hy h.1.symm
        have hne2 : ¬(r.datetime.year = y ∧ True) := fun h => hy h.1.symm
        simp [hy, hne, hne2]
    · simp [hmem]
  have hcong2 : ((yearKeys items).map
        ((fun x : Nat × List (Nat × List DownloadedRecord) =>
            (x.2.flatMap fun ml => ml.2).count r) ∘
          fun y => (y, (monthKeys items y).map fun m => (m, monthBucket items y m))))
      = (yearKeys items).map fun y =>
          if y = r.datetime.year
          then (if r.datetime.month ∈ monthKeys items y then items.count r else 0) else 0 := by
    apply List.map_congr_left
    intro y _
    exact hinner y
  rw [show ((yearKeys items).map
        ((fun x : Nat × List (Nat × List DownloadedRecord) =>
            (x.2.flatMap fun ml => ml.2).count r) ∘
          fun y => (y, (monthKeys items y).map fun m => (m, monthBucket items y m)))).sum
      = ((yearKeys items).map fun y =>
          if y = r.datetime.year
          then (if r.datetime.month ∈ monthKeys items y then items.count r else 0)
          else 0).sum from by rw [hcong2]]
  rw [sum_map_ite _ (yearKeys_nodup items)]
  by_cases hr : r ∈ items
  · have h1 := year_mem_of_mem items r hr
    have h2 := month_mem_of_mem items r hr
    simp [h1, h2]
  · have hc : items.count r = 0 := List.count_eq_zero.2 hr
    rw [hc]
    split_ifs <;> rfl

/-- C4: grouping is a partition — each record lands exactly in the bucket of
its own `(year, month)` pair (with its input multiplicity), and the grouped
index as a whole is a permutation of the input sequence. -/
theorem C4_grouping_partition (items : List DownloadedRecord) :
    (∀ y m r, (bucketOf (group_by_year_month items) y m).count r =
      if r.datetime.year = y ∧ r.datetime.month = m then items.count r else 0) ∧
      (flattenGrouped (group_by_year_month items)).Perm items :=
  ⟨fun y m r => bucketOf_count items y m r, flattenGrouped_perm items⟩

/-! ### C5: ordering invariants -/

/-- Strictly descending chain of naturals. -/
def strictDescB : List Nat → Bool
  | [] => true
  | [_] => true
  | a :: b :: t => decide (b < a) && strictDescB (b :: t)

/-- Non-increasing by timestamp. -/
def sortedDescB : List DownloadedRecord → Bool
  | [] => true
  | [_] => true
  | a :: b :: t => PyDateTime.leb b.datetime a.datetime && sortedDescB (b :: t)

theorem PyDateTime.leb_total (a b : PyDateTime) : a.leb b = true ∨ b.leb a = true := by
  unfold PyDateTime.leb
  simp only [Bool.or_eq_true, Bool.and_eq_true, decide_eq_true_eq, beq_iff_eq]
  omega

theorem PyDateTime.leb_trans (a b c : PyDateTime) (h1 : a.leb b = true)
    (h2 : b.leb c = true) : a.leb c = true := by
  unfold PyDateTime.leb at h1 h2 ⊢
  simp only [Bool.or_eq_true, Bool.and_eq_true, decide_eq_true_eq, beq_iff_eq] at h1 h2 ⊢
  omega

instance : IsTotal Nat (fun a b => b ≤ a) := ⟨fun a b => Nat.le_total b a⟩

instance : IsTrans Nat (fun a b => b ≤ a) := ⟨fun _ _ _ h1 h2 => Nat.le_trans h2 h1⟩

instance : IsTotal DownloadedRecord descByDatetime :=
  ⟨fun a b => PyDateTime.leb_total b.datetime a.datetime⟩

instance : IsTrans DownloadedRecord descByDatetime :=
  ⟨fun a b c h1 h2 => PyDateTime.leb_trans c.datetime b.datetime a.datetime h2 h1⟩

theorem pairwise_strictDescB (l : List Nat) (h : l.Pairwise fun a b => b < a) :
    strictDescB l = true := by
  induction l with
  | nil => rfl
  | cons a t ih =>
    cases t with
    | nil => rfl
    | cons b t' =>
      have hp := List.pairwise_cons.1 h
      simp only [strictDescB, Bool.and_eq_true, decide_eq_true_eq]
      exact ⟨hp.1 b (by simp), ih hp.2⟩

theorem pairwise_sortedDescB (l : List DownloadedRecord) (h : l.Pairwise descByDatetime) :
    sortedDescB l = true := by
  induction l with
  | nil => rfl
  | cons a t ih =>
    cases t with
    | nil => rfl
    | cons b t' =>
      have hp := List.pairwise_cons.1 h
      simp only [sortedDescB, Bool.and_eq_true]
      exact ⟨hp.1 b (by simp), ih hp.2⟩

/-- Descending sort of a duplicate-free key list is strictly descending. -/
theorem strictDesc_sortDescNat (l : List Nat) (h : l.Nodup) :
    strictDescB (sortDescNat l) = true := by
  apply pairwise_strictDescB
  have hs : (sortDescNat l).Pairwise (fun a b => b ≤ a) :=
    List.sorted_insertionSort (fun a b => b ≤ a) l
  have hn : (sortDescNat l).Pairwise (fun a b => a ≠ b) :=
    (List.perm_insertionSort (fun a b => b ≤ a) l).nodup_iff.2 h
  exact (hs.and hn).imp fun hab => Nat.lt_of_le_of_ne hab.1 fun he => hab.2 he.symm

/-- Every month bucket is non-increasing by timestamp. -/
theorem sortedDescB_monthBucket (items : List DownloadedRecord) (y m : Nat) :
    sortedDescB (monthBucket items y m) = true :=
  pairwise_sortedDescB _ (List.sorted_insertionSort descByDatetime _)

/-- C5: years strictly descending, months strictly descending within each
year, and records non-increasing by timestamp within each month. -/
theorem C5_ordering_invariants (items : List DownloadedRecord) :
    strictDescB (yearsOf (group_by_year_month items)) = true ∧
      (group_by_year_month items).all
        (fun ym => strictDescB (ym.2.map Prod.fst)) = true ∧
      (group_by_year_month items).all
        (fun ym => ym.2.all fun ml => sortedDescB ml.2) = true := by
  refine ⟨?_, ?_, ?_⟩
  · unfold yearsOf group_by_year_month
    rw [List.map_map]
    rw [show ((yearKeys items).map (Prod.fst ∘ fun y =>
        (y, (monthKeys items y).map fun m => (m, monthBucket items y m))))
        = yearKeys items from by
      rw [show (Prod.fst ∘ fun y : Nat =>
          (y, (monthKeys items y).map fun m => (m, monthBucket items y m))) = id from rfl]
      exact List.map_id _]
    unfold yearKeys
    exact strictDesc_sortDescNat _ (List.nodup_dedup _)
  · rw [List.all_eq_true]
    intro ym hym
    unfold group_by_year_month at hym
    rcases List.mem_map.1 hym with ⟨y, hy, rfl⟩
    show strictDescB (((monthKeys items y).map fun m => (m, monthBucket items y m)).map
      Prod.fst) = true
    rw [List.map_map]
    rw [show ((monthKeys items y).map (Prod.fst ∘ fun m => (m, monthBucket items y m)))
        = monthKeys items y from by
      rw [show (Prod.fst ∘ fun m : Nat => (m, monthBucket items y m)) = id from rfl]
      exact List.map_id _]
    unfold monthKeys
    exact strictDesc_sortDescNat _ (List.nodup_dedup _)
  · rw [List.all_eq_true]
    intro ym hym
    unfold group_by_year_month at hym
    rcases List.mem_map.1 hym with ⟨y, hy, rfl⟩
    rw [List.all_eq_true]
    intro ml hml
    rcases List.mem_map.1 hml with ⟨m, hm, rfl⟩
    exact sortedDescB_monthBucket items y m

/-! ### C2: date format round-trip -/

/-- A digit character differs from any non-digit character. -/
theorem isDigitB_ne (c d : Char) (hc : isDigitB c = true) (hd : isDigitB d = false) :
    c ≠ d :=
  beq_eq_false_iff_ne.1 (isDigitB_beq_false c d hc hd)

/-- The date half of the canonical `"%Y-%m-%d %H:%M:%S"` rendering. -/
def datePartL (dt : PyDateTime) : List Char :=
  padNum 4 dt.year ++ '-' :: (padNum 2 dt.month ++ '-' :: padNum 2 dt.day)

/-- The time half of the canonical `"%Y-%m-%d %H:%M:%S"` rendering. -/
def timePartL (dt : PyDateTime) : List Char :=
  padNum 2 dt.hour ++ ':' :: (padNum 2 dt.minute ++ ':' :: padNum 2 dt.second)

theorem renderYmdHms_parts (dt : PyDateTime) :
    renderYmdHms dt = datePartL dt ++ ' ' :: timePartL dt := by
  unfold renderYmdHms datePartL timePartL
  simp [List.append_assoc]

/-- Every character of the rendering is a digit or one of `-`, ` `, `:`. -/
theorem renderYmdHms_chars (dt : PyDateTime) :
    ∀ c ∈ renderYmdHms dt, isDigitB c = true ∨ c = '-' ∨ c = ' ' ∨ c = ':' := by
  intro c hc
  unfold renderYmdHms at hc
  simp only [List.append_assoc, List.mem_append, List.mem_singleton] at hc
  rcases hc with h | h | h | h | h | h | h | h | h | h | h
  · exact Or.inl (padNum_all_digits 4 dt.year c h)
  · exact Or.inr (Or.inl h)
  · exact Or.inl (padNum_all_digits 2 dt.month c h)
  · exact Or.inr (Or.inl h)
  · exact Or.inl (padNum_all_digits 2 dt.day c h)
  · exact Or.inr (Or.inr (Or.inl h))
  · exact Or.inl (padNum_all_digits 2 dt.hour c h)
  · exact Or.inr (Or.inr (Or.inr h))
  · exact Or.inl (padNum_all_digits 2 dt.minute c h)
  · exact Or.inr (Or.inr (Or.inr h))
  · exact Or.inl (padNum_all_digits 2 dt.second c h)

theorem renderYmdHms_no_U (dt : PyDateTime) : ∀ c ∈ renderYmdHms dt, c ≠ 'U' := by
  intro c hc
  rcases renderYmdHms_chars dt c hc with h | h | h | h
  · exact isDigitB_ne c 'U' h (by decide)
  all_goals (subst h; decide)

/-- Field parse of the four-digit padded year. -/
theorem parseYearField_padNum (y : Nat) (h1 : 1 ≤ y) (h2 : y ≤ 9999) :
    parseYearField (padNum 4 y) = some y := by
  unfold parseYearField
  rw [if_pos ⟨padNum_four_length y h1 h2, List.all_eq_true.2 (padNum_all_digits 4 y)⟩,
    parseDigits_padNum]

/-- Field parse of a two-digit padded component. -/
theorem parseNumField_padNum (n : Nat) (h : n ≤ 99) :
    parseNumField 2 (padNum 2 n) = some n := by
  unfold parseNumField
  have hlen := padNum_two_length n h
  rw [if_pos ⟨by intro he; rw [he] at hlen; exact absurd hlen (by decide),
    by omega, List.all_eq_true.2 (padNum_all_digits 2 n)⟩, parseDigits_padNum]

theorem datePartL_no_space (dt : PyDateTime) : ∀ c ∈ datePartL dt, c ≠ ' ' := by
  intro c hc
  unfold datePartL at hc
  simp only [List.mem_append, List.mem_cons] at hc
  rcases hc with h | h | h | h | h
  · exact isDigitB_ne c ' ' (padNum_all_digits 4 dt.year c h) (by decide)
  · subst h; decide
  · exact isDigitB_ne c ' ' (padNum_all_digits 2 dt.month c h) (by decide)
  · subst h; decide
  · exact isDigitB_ne c ' ' (padNum_all_digits 2 dt.day c h) (by decide)

theorem timePartL_no_space (dt : PyDateTime) : ∀ c ∈ timePartL dt, c ≠ ' ' := by
  intro c hc
  unfold timePartL at hc
  simp only [List.mem_append, List.mem_cons] at hc
  rcases hc with h | h | h | h | h
  · exact isDigitB_ne c ' ' (padNum_all_digits 2 dt.hour c h) (by decide)
  · subst h; decide
  · exact isDigitB_ne c ' ' (padNum_all_digits 2 dt.minute c h) (by decide)
  · subst h; decide
  · exact isDigitB_ne c ' ' (padNum_all_digits 2 dt.second c h) (by decide)

/-- The rendering splits on the single space into date and time halves. -/
theorem splitSpace_renderYmdHms (dt : PyDateTime) :
    splitOnChar ' ' (renderYmdHms dt) = [datePartL dt, timePartL dt] := by
  rw [renderYmdHms_parts, splitOnChar_append ' ' _ _ (datePartL_no_space dt),
    splitOnChar_no_sep ' ' _ (timePartL_no_space dt)]

/-- The date half splits on the dashes into the three padded fields. -/
theorem splitDash_datePartL (dt : PyDateTime) :
    splitOnChar '-' (datePartL dt) =
      [padNum 4 dt.year, padNum 2 dt.month, padNum 2 dt.day] := by
  unfold datePartL
  rw [splitOnChar_append '-' _ _ (fun c hc =>
    isDigitB_ne c '-' (padNum_all_digits 4 dt.year c hc) (by decide))]
  rw [splitOnChar_append '-' _ _ (fun c hc =>
    isDigitB_ne c '-' (padNum_all_digits 2 dt.month c hc) (by decide))]
  rw [splitOnChar_no_sep '-' _ (fun c hc =>
    isDigitB_ne c '-' (padNum_all_digits 2 dt.day c hc) (by decide))]

/-- The time half splits on the colons into the three padded fields. -/
theorem splitColon_timePartL (dt : PyDateTime) :
    splitOnChar ':' (timePartL dt) =
      [padNum 2 dt.hour, padNum 2 dt.minute, padNum 2 dt.second] := by
  unfold timePartL
  rw [splitOnChar_append ':' _ _ (fun c hc =>
    isDigitB_ne c ':' (padNum_all_digits 2 dt.hour c hc) (by decide))]
  rw [splitOnChar_append ':' _ _ (fun c hc =>
    isDigitB_ne c ':' (padNum_all_digits 2 dt.minute c hc) (by decide))]
  rw [splitOnChar_no_sep ':' _ (fun c hc =>
    isDigitB_ne c ':' (padNum_all_digits 2 dt.second c hc) (by decide))]

/-- `strptime` with `"%Y-%m-%d %H:%M:%S"` inverts the canonical rendering of
a valid datetime. -/
theorem parseYmdHms_renderYmdHms (dt : PyDateTime) (h : dt.valid) :
    parseYmdHms (renderYmdHms dt) = some dt := by
  obtain ⟨hy1, hy2, hm1, hm2, hd1, hd2, hh, hmi, hs⟩ := h
  have e1 := parseYearField_padNum dt.year hy1 hy2
  have e2 := parseNumField_padNum dt.month (by omega)
  have e3 := parseNumField_padNum dt.day (by
    have : daysInMonth dt.year dt.month ≤ 31 := by
      unfold daysInMonth
      split_ifs <;> omega
    omega)
  have e4 := parseNumField_padNum dt.hour (by omega)
  have e5 := parseNumField_padNum dt.minute (by omega)
  have e6 := parseNumField_padNum dt.second (by omega)
  unfold parseYmdHms
  simp only [splitSpace_renderYmdHms, splitDash_datePartL, splitColon_timePartL,
    e1, e2, e3, e4, e5, e6]
  rw [if_pos ⟨hy1, hm1, hm2, hd1, hd2, hh, hmi, hs⟩]

/-- Month names contain neither a space nor a capital U. -/
theorem monthName_chars : ∀ m, m < 13 → ∀ c ∈ (monthName m).data, c ≠ ' ' ∧ c ≠ 'U' := by
  decide

/-- `%B` inverts the month-name table on 1..12. -/
theorem monthFromName_monthName : ∀ m, m < 13 → 1 ≤ m →
    monthFromName (monthName m).data = some m := by
  decide

/-- The canonical `"%B %d, %Y"` character list, reassociated at its two
spaces. -/
theorem renderFmt3_data (dt : PyDateTime) :
    (renderFmt3 dt).data = (monthName dt.month).data ++
      ' ' :: ((padNum 2 dt.day ++ [',']) ++ ' ' :: padNum 4 dt.year) := by
  show (monthName dt.month).data ++ [' '] ++ padNum 2 dt.day ++ [',', ' ']
      ++ padNum 4 dt.year = _
  simp [List.append_assoc]

theorem dayComma_no_space (dt : PyDateTime) :
    ∀ c ∈ padNum 2 dt.day ++ [','], c ≠ ' ' := by
  intro c hc
  rcases List.mem_append.1 hc with h | h
  · exact isDigitB_ne c ' ' (padNum_all_digits 2 dt.day c h) (by decide)
  · rw [List.mem_singleton.1 h]; decide

/-- The `"%B %d, %Y"` rendering splits on spaces into three pieces. -/
theorem splitSpace_renderFmt3 (dt : PyDateTime) (hm : dt.month < 13) :
    splitOnChar ' ' ((renderFmt3 dt).data) =
      [(monthName dt.month).data, padNum 2 dt.day ++ [','], padNum 4 dt.year] := by
  rw [renderFmt3_data]
  rw [splitOnChar_append ' ' _ _ (fun c hc => (monthName_chars dt.month hm c hc).1)]
  rw [splitOnChar_append ' ' _ _ (dayComma_no_space dt)]
  rw [splitOnChar_no_sep ' ' _ (fun c hc =>
    isDigitB_ne c ' ' (padNum_all_digits 4 dt.year c hc) (by decide))]

/-- A `"%B %d, %Y"` string does not parse as `"%Y-%m-%d %H:%M:%S"`. -/
theorem parseYmdHms_renderFmt3 (dt : PyDateTime) (hm : dt.month < 13) :
    parseYmdHms ((renderFmt3 dt).data) = none := by
  unfold parseYmdHms
  rw [splitSpace_renderFmt3 dt hm]

/-- `strptime` with `"%B %d, %Y"` inverts the canonical rendering, producing
midnight of the encoded date. -/
theorem parseBdY_renderFmt3 (dt : PyDateTime) (h : dt.valid) :
    parseBdY ((renderFmt3 dt).data) =
      some ⟨dt.year, dt.month, dt.day, 0, 0, 0⟩ := by
  obtain ⟨hy1, hy2, hm1, hm2, hd1, hd2, hh, hmi, hs⟩ := h
  have hsplit2 : splitOnChar ',' (padNum 2 dt.day ++ [',']) = [padNum 2 dt.day, []] := by
    have : padNum 2 dt.day ++ [','] = padNum 2 dt.day ++ ',' :: [] := rfl
    rw [this, splitOnChar_append ',' _ _ (fun c hc =>
      isDigitB_ne c ',' (padNum_all_digits 2 dt.day c hc) (by decide))]
    rfl
  have e1 := monthFromName_monthName dt.month (by omega) hm1
  have e2 := parseNumField_padNum dt.day (by
    have : daysInMonth dt.year dt.month ≤ 31 := by
      unfold daysInMonth
      split_ifs <;> omega
    omega)
  have e3 := parseYearField_padNum dt.year hy1 hy2
  unfold parseBdY
  simp only [splitSpace_renderFmt3 dt (by omega), hsplit2, e1, e2, e3]
  rw [if_pos ⟨hy1, hd1, hd2⟩]

/-- C2: a string produced in any of the three accepted formats (with the
export's UTC timezone rendering for `%Z`) is accepted by the loader's parser
and parses back to the calendar date/time it encodes — the full timestamp
for the first two formats, and the date at midnight for `"%B %d, %Y"`,
which encodes no time of day. -/
theorem C2_date_format_roundtrip (dt : PyDateTime) (h : dt.valid) :
    parse_date (renderFmt1 dt) = some dt ∧
      parse_date (renderFmt2 dt) = some dt ∧
      parse_date (renderFmt3 dt) = some ⟨dt.year, dt.month, dt.day, 0, 0, 0⟩ := by
  have hnoU := renderYmdHms_no_U dt
  refine ⟨?_, ?_, ?_⟩
  · show parse_date_chars (renderYmdHms dt ++ utcPat) = some dt
    unfold parse_date_chars
    rw [show removePat utcPat (renderYmdHms dt ++ utcPat) = renderYmdHms dt from
      removePat_append_self ' ' 'U' ['T', 'C'] (renderYmdHms dt) (by decide) hnoU]
    simp [parseYmdHms_renderYmdHms dt h, Option.orElse]
  · show parse_date_chars (renderYmdHms dt) = some dt
    unfold parse_date_chars
    rw [show removePat utcPat (renderYmdHms dt) = renderYmdHms dt from
      removePat_of_not_mem ' ' 'U' ['T', 'C'] (renderYmdHms dt) hnoU]
    simp [parseYmdHms_renderYmdHms dt h, Option.orElse]
  · have hm2 : dt.month ≤ 12 := h.2.2.2.1
    have hnoU3 : ∀ c ∈ (renderFmt3 dt).data, c ≠ 'U' := by
      intro c hc
      rw [renderFmt3_data] at hc
      simp only [List.mem_append, List.mem_cons] at hc
      rcases hc with hc | hc | hc | hc | hc
      · exact (monthName_chars dt.month (by omega) c hc).2
      · rw [hc]; decide
      · rcases hc with hc | hc | hc
        · exact isDigitB_ne c 'U' (padNum_all_digits 2 dt.day c hc) (by decide)
        · rw [hc]; decide
        · exact absurd hc (List.not_mem_nil c)
      · rw [hc]; decide
      · exact isDigitB_ne c 'U' (padNum_all_digits 4 dt.year c hc) (by decide)
    show parse_date_chars ((renderFmt3 dt).data) = some ⟨dt.year, dt.month, dt.day, 0, 0, 0⟩
    unfold parse_date_chars
    rw [show removePat utcPat ((renderFmt3 dt).data) = (renderFmt3 dt).data from
      removePat_of_not_mem ' ' 'U' ['T', 'C'] _ hnoU3]
    simp only [parseYmdHms_renderFmt3 dt (by omega), Option.orElse]
    exact parseBdY_renderFmt3 dt h

/-- C2 witness: the scenario timestamp round-trips through all three
formats. -/
theorem C2_date_format_roundtrip_witness :
    parse_date (renderFmt1 ⟨2023, 5, 1, 10, 0, 0⟩) = some ⟨2023, 5, 1, 10, 0, 0⟩ ∧
      parse_date (renderFmt2 ⟨2023, 5, 1, 10, 0, 0⟩) = some ⟨2023, 5, 1, 10, 0, 0⟩ ∧
      parse_date (renderFmt3 ⟨2023, 5, 1, 10, 0, 0⟩) = some ⟨2023, 5, 1, 0, 0, 0⟩ :=
  C2_date_format_roundtrip ⟨2023, 5, 1, 10, 0, 0⟩ (by decide)
